import Mathlib

/-!
Shallow embedding of `src/refactoring3/components/CartPage.tsx`.

The component's pure computations (discount evaluation, remaining stock,
select-widget change handlers, rendered labels and button states, and the
quantity-control click payloads) are translated into Lean definitions.
JavaScript numbers holding quantities, stock and prices are modelled as `Int`;
discount rates (fractions such as 0.1) as `Rat`; `parseInt` on the strings the
select widgets produce is modelled with `NaN` as `none`.
-/

namespace CartPage

/-- Discount tier of a product: `{ quantity, rate }` from `types.ts`. -/
structure Discount where
  quantity : Int
  rate : Rat
  deriving DecidableEq

/-- Product record from `types.ts` as used by `CartPage`. -/
structure Product where
  id : String
  name : String
  price : Int
  stock : Int
  discounts : List Discount
  deriving DecidableEq

/-- Cart line item: a product together with the requested quantity. -/
structure CartItem where
  product : Product
  quantity : Int
  deriving DecidableEq

/-- Membership record from `types.ts` as used by `ApplyMembership`. -/
structure Membership where
  name : String
  code : String
  discountValue : Int
  deriving DecidableEq

/-- Discount type of a coupon: the string union `'amount' | 'percentage'`. -/
inductive DiscountType where
  | amount
  | percentage
  deriving DecidableEq

/-- Coupon record from `types.ts` as used by `ApplyCoupon`. -/
structure Coupon where
  name : String
  code : String
  discountType : DiscountType
  discountValue : Int
  deriving DecidableEq

/-- `getMaxDiscount` (CartPage.tsx lines 28-30):
`discounts.reduce((max, discount) => Math.max(max, discount.rate), 0)`. -/
def getMaxDiscount (discounts : List Discount) : Rat :=
  discounts.foldl (fun m discount => max m discount.rate) 0

/-- `getRemainingStock` (CartPage.tsx lines 32-35): finds the cart line whose
product id equals `product.id` and subtracts its quantity from the stock
(`cartItem?.quantity || 0`; for an integer quantity `q`, `q || 0 = q`). -/
def getRemainingStock (cart : List CartItem) (product : Product) : Int :=
  let cartItem := cart.find? fun item => item.product.id == product.id
  product.stock -
    (match cartItem with
     | some item => item.quantity
     | none => 0)

/-- `getAppliedDiscount` (CartPage.tsx lines 39-49): folds over the product's
discount tiers, taking the max rate over tiers with `quantity >= discount.quantity`,
starting from 0. -/
def getAppliedDiscount (item : CartItem) : Rat :=
  item.product.discounts.foldl
    (fun appliedDiscount discount =>
      if discount.quantity ≤ item.quantity then max appliedDiscount discount.rate
      else appliedDiscount)
    0

/-- Rendered state of the add-to-cart button of a product card. -/
structure AddToCartButton where
  disabled : Bool
  label : String
  deriving DecidableEq

/-- The add-to-cart button (CartPage.tsx lines 97-107):
`disabled={remainingStock <= 0}` and label
`remainingStock > 0 ? '장바구니에 추가' : '품절'`. -/
def addToCartButton (remainingStock : Int) : AddToCartButton :=
  { disabled := decide (remainingStock ≤ 0)
    label := if remainingStock > 0 then "장바구니에 추가" else "품절" }

/-- The add-to-cart button as rendered for `product` in the catalog pane,
fed with `getRemainingStock(product)` (CartPage.tsx line 65). -/
def renderedAddButton (cart : List CartItem) (product : Product) : AddToCartButton :=
  addToCartButton (getRemainingStock cart product)

/-- Mutation request sent to the cart aggregator (`useCart`). -/
inductive CartAction where
  | updateQuantity (productId : String) (newQuantity : Int)
  | removeFromCart (productId : String)
  deriving DecidableEq

/-- Click payload of the `-` control of a cart line (CartPage.tsx line 138):
`updateQuantity(item.product.id, item.quantity - 1)`. -/
def decrementClick (item : CartItem) : CartAction :=
  CartAction.updateQuantity item.product.id (item.quantity - 1)

/-- Click payload of the `+` control of a cart line (CartPage.tsx line 144):
`updateQuantity(item.product.id, item.quantity + 1)`. -/
def incrementClick (item : CartItem) : CartAction :=
  CartAction.updateQuantity item.product.id (item.quantity + 1)

/-- JavaScript `parseInt` restricted to the strings the select widgets feed it:
the blank option value `""` and the decimal index strings `"0"`, `"1"`, ....
`parseInt("")` is `NaN`, modelled as `none`; a digit string parses to its value. -/
def jsParseInt (s : String) : Option Nat :=
  match s.data with
  | [] => none
  | c :: cs =>
    if (c :: cs).all Char.isDigit then
      some ((c :: cs).foldl (fun n ch => n * 10 + (ch.toNat - 48)) 0)
    else none

/-- JavaScript array indexing `xs[i] || null`: out-of-range (and `xs[NaN]`)
yields `undefined`, which `|| null` turns into `null`; an object element is
never falsy, so an in-range element passes through. -/
def jsElementAt {α : Type} (xs : List α) (i : Option Nat) : Option α :=
  match i with
  | none => none
  | some n => xs[n]?

/-- `ApplyMembership.handleChange` (CartPage.tsx lines 204-206):
`onMembershipChange(memberships[parseInt(e.target.value)] || null)`. -/
def ApplyMembership.handleChange (memberships : List Membership) (value : String) :
    Option Membership :=
  jsElementAt memberships (jsParseInt value)

/-- `ApplyCoupon.handleChange` (CartPage.tsx lines 241-243):
`onCouponChange(coupons[parseInt(e.target.value)] || null)`. -/
def ApplyCoupon.handleChange (coupons : List Coupon) (value : String) :
    Option Coupon :=
  jsElementAt coupons (jsParseInt value)

/-- The discount part of a coupon label (CartPage.tsx lines 257-259 and 266-268):
`discountType === 'amount' ? value + '원' : value + '%'`. -/
def couponDiscountLabel (coupon : Coupon) : String :=
  if coupon.discountType = DiscountType.amount then
    toString coupon.discountValue ++ "원"
  else
    toString coupon.discountValue ++ "%"

/-- Text of a coupon's `<option>` in the coupon select (CartPage.tsx lines 254-261). -/
def couponOptionLabel (coupon : Coupon) : String :=
  coupon.name ++ " - " ++ couponDiscountLabel coupon

/-- Text of the applied-coupon confirmation line (CartPage.tsx lines 263-271). -/
def appliedCouponLine (coupon : Coupon) : String :=
  "적용된 쿠폰: " ++ coupon.name ++ "(" ++ couponDiscountLabel coupon ++ " 할인)"

/-! ### Helper lemmas about the max-folds in `getMaxDiscount` and `getAppliedDiscount` -/

lemma maxfold_init_le (l : List Discount) (init : Rat) :
    init ≤ l.foldl (fun m discount => max m discount.rate) init := by
  induction l generalizing init with
  | nil => exact le_refl _
  | cons a l ih =>
    rw [List.foldl_cons]
    exact le_trans (le_max_left _ _) (ih _)

lemma maxfold_rate_le (l : List Discount) (init : Rat) :
    ∀ d ∈ l, d.rate ≤ l.foldl (fun m discount => max m discount.rate) init := by
  induction l generalizing init with
  | nil => intro d hd; cases hd
  | cons a l ih =>
    intro d hd
    rw [List.foldl_cons]
    rcases List.mem_cons.mp hd with rfl | h
    · exact le_trans (le_max_right _ _) (maxfold_init_le _ _)
    · exact ih _ d h

lemma maxfold_attained (l : List Discount) (init : Rat) :
    l.foldl (fun m discount => max m discount.rate) init = init ∨
      ∃ d ∈ l, l.foldl (fun m discount => max m discount.rate) init = d.rate := by
  induction l generalizing init with
  | nil => exact Or.inl rfl
  | cons a l ih =>
    rw [List.foldl_cons]
    rcases ih (max init a.rate) with h | ⟨d, hd, h⟩
    · rcases max_choice init a.rate with hm | hm
      · exact Or.inl (by rw [h, hm])
      · exact Or.inr ⟨a, List.mem_cons_self _ _, by rw [h, hm]⟩
    · exact Or.inr ⟨d, List.mem_cons_of_mem _ hd, h⟩

lemma afold_init_le (q : Int) (l : List Discount) (init : Rat) :
    init ≤ l.foldl
      (fun acc discount =>
        if discount.quantity ≤ q then max acc discount.rate else acc) init := by
  induction l generalizing init with
  | nil => exact le_refl _
  | cons a l ih =>
    rw [List.foldl_cons]
    refine le_trans ?_ (ih _)
    by_cases h : a.quantity ≤ q
    · rw [if_pos h]; exact le_max_left _ _
    · rw [if_neg h]

lemma afold_rate_le (q : Int) (l : List Discount) (init : Rat) :
    ∀ d ∈ l, d.quantity ≤ q →
      d.rate ≤ l.foldl
        (fun acc discount =>
          if discount.quantity ≤ q then max acc discount.rate else acc) init := by
  induction l generalizing init with
  | nil => intro d hd; cases hd
  | cons a l ih =>
    intro d hd hdq
    rw [List.foldl_cons]
    rcases List.mem_cons.mp hd with rfl | h
    · rw [if_pos hdq]
      exact le_trans (le_max_right _ _) (afold_init_le q l _)
    · exact ih _ d h hdq

lemma afold_attained (q : Int) (l : List Discount) (init : Rat) :
    l.foldl (fun acc discount =>
        if discount.quantity ≤ q then max acc discount.rate else acc) init = init ∨
      ∃ d ∈ l, d.quantity ≤ q ∧
        l.foldl (fun acc discount =>
          if discount.quantity ≤ q then max acc discount.rate else acc) init = d.rate := by
  induction l generalizing init with
  | nil => exact Or.inl rfl
  | cons a l ih =>
    rw [List.foldl_cons]
    by_cases ha : a.quantity ≤ q
    · rw [if_pos ha]
      rcases ih (max init a.rate) with h | ⟨d, hd, hdq, h⟩
      · rcases max_choice init a.rate with hm | hm
        · exact Or.inl (by rw [h, hm])
        · exact Or.inr ⟨a, List.mem_cons_self _ _, ha, by rw [h, hm]⟩
      · exact Or.inr ⟨d, List.mem_cons_of_mem _ hd, hdq, h⟩
    · rw [if_neg ha]
      rcases ih init with h | ⟨d, hd, hdq, h⟩
      · exact Or.inl h
      · exact Or.inr ⟨d, List.mem_cons_of_mem _ hd, hdq, h⟩

lemma afold_mono (q₁ q₂ : Int) (hq : q₁ ≤ q₂) (l : List Discount)
    (init₁ init₂ : Rat) (hi : init₁ ≤ init₂) :
    l.foldl (fun acc discount =>
        if discount.quantity ≤ q₁ then max acc discount.rate else acc) init₁ ≤
      l.foldl (fun acc discount =>
        if discount.quantity ≤ q₂ then max acc discount.rate else acc) init₂ := by
  induction l generalizing init₁ init₂ with
  | nil => exact hi
  | cons a l ih =>
    rw [List.foldl_cons, List.foldl_cons]
    apply ih
    by_cases h₁ : a.quantity ≤ q₁
    · rw [if_pos h₁, if_pos (le_trans h₁ hq)]
      exact max_le_max hi (le_refl _)
    · rw [if_neg h₁]
      by_cases h₂ : a.quantity ≤ q₂
      · rw [if_pos h₂]
        exact le_trans hi (le_max_left _ _)
      · rw [if_neg h₂]
        exact hi

/-! ### Claim theorems -/

/-- C1: For every cart item whose product has a list of discount tiers with
rates in [0,1], `getAppliedDiscount` returns the maximum rate among the tiers
whose quantity threshold is at most the item's quantity — it is an upper bound
of the qualifying rates, it is attained by a qualifying tier whenever one
exists — and it returns 0 when no tier qualifies (including the empty list). -/
theorem getAppliedDiscount_is_max_of_qualifying (item : CartItem)
    (hr : ∀ d ∈ item.product.discounts, 0 ≤ d.rate ∧ d.rate ≤ 1) :
    (∀ d ∈ item.product.discounts, d.quantity ≤ item.quantity →
        d.rate ≤ getAppliedDiscount item) ∧
    ((∃ d ∈ item.product.discounts, d.quantity ≤ item.quantity) →
        ∃ d ∈ item.product.discounts, d.quantity ≤ item.quantity ∧
          getAppliedDiscount item = d.rate) ∧
    ((∀ d ∈ item.product.discounts, ¬ d.quantity ≤ item.quantity) →
        getAppliedDiscount item = 0) := by
  simp only [getAppliedDiscount]
  refine ⟨fun d hd hdq => afold_rate_le item.quantity item.product.discounts 0 d hd hdq,
    ?_, ?_⟩
  · rintro ⟨d₀, hd₀, hq₀⟩
    rcases afold_attained item.quantity item.product.discounts 0 with h | ⟨d, hd, hdq, h⟩
    · refine ⟨d₀, hd₀, hq₀, ?_⟩
      have h₁ := afold_rate_le item.quantity item.product.discounts 0 d₀ hd₀ hq₀
      rw [h] at h₁
      rw [h]
      exact (le_antisymm h₁ (hr d₀ hd₀).1).symm
    · exact ⟨d, hd, hdq, h⟩
  · intro hnone
    rcases afold_attained item.quantity item.product.discounts 0 with h | ⟨d, hd, hdq, _⟩
    · exact h
    · exact absurd hdq (hnone d hd)

/-- Concrete cart item for the C1 witness: tiers (2, 1/10) and (5, 1/5),
quantity 5, as in the spec's scenario. -/
def itemC1 : CartItem :=
  ⟨⟨"p1", "product1", 10000, 20, [⟨2, mkRat 1 10⟩, ⟨5, mkRat 1 5⟩]⟩, 5⟩

/-- Witness for C1 at the spec's scenario item. -/
theorem getAppliedDiscount_is_max_of_qualifying_witness :
    (∀ d ∈ itemC1.product.discounts, 0 ≤ d.rate ∧ d.rate ≤ 1) ∧
    ((∀ d ∈ itemC1.product.discounts, d.quantity ≤ itemC1.quantity →
        d.rate ≤ getAppliedDiscount itemC1) ∧
      ((∃ d ∈ itemC1.product.discounts, d.quantity ≤ itemC1.quantity) →
        ∃ d ∈ itemC1.product.discounts, d.quantity ≤ itemC1.quantity ∧
          getAppliedDiscount itemC1 = d.rate) ∧
      ((∀ d ∈ itemC1.product.discounts, ¬ d.quantity ≤ itemC1.quantity) →
        getAppliedDiscount itemC1 = 0)) :=
  ⟨by decide, getAppliedDiscount_is_max_of_qualifying itemC1 (by decide)⟩

/-- C2: For every list of discount tiers with rates in [0,1], `getMaxDiscount`
returns the largest rate among all tiers — an upper bound attained by some tier
when the list is nonempty — and returns 0 on the empty list. It is a plain
total function. -/
theorem getMaxDiscount_is_max (discounts : List Discount)
    (hr : ∀ d ∈ discounts, 0 ≤ d.rate ∧ d.rate ≤ 1) :
    (∀ d ∈ discounts, d.rate ≤ getMaxDiscount discounts) ∧
    (discounts = [] → getMaxDiscount discounts = 0) ∧
    (discounts ≠ [] → ∃ d ∈ discounts, getMaxDiscount discounts = d.rate) := by
  simp only [getMaxDiscount]
  refine ⟨fun d hd => maxfold_rate_le discounts 0 d hd, ?_, ?_⟩
  · rintro rfl
    rfl
  · intro hne
    rcases maxfold_attained discounts 0 with h | hatt
    · obtain ⟨d₀, hd₀⟩ := List.exists_mem_of_ne_nil discounts hne
      refine ⟨d₀, hd₀, ?_⟩
      have h₁ := maxfold_rate_le discounts 0 d₀ hd₀
      rw [h] at h₁
      rw [h]
      exact (le_antisymm h₁ (hr d₀ hd₀).1).symm
    · exact hatt

/-- Concrete tier list for the C2 witness. -/
def tiersC2 : List Discount := [⟨2, mkRat 1 10⟩, ⟨5, mkRat 1 5⟩]

/-- Witness for C2 at a concrete two-tier list. -/
theorem getMaxDiscount_is_max_witness :
    (∀ d ∈ tiersC2, 0 ≤ d.rate ∧ d.rate ≤ 1) ∧
    ((∀ d ∈ tiersC2, d.rate ≤ getMaxDiscount tiersC2) ∧
      (tiersC2 = [] → getMaxDiscount tiersC2 = 0) ∧
      (tiersC2 ≠ [] → ∃ d ∈ tiersC2, getMaxDiscount tiersC2 = d.rate)) :=
  ⟨by decide, getMaxDiscount_is_max tiersC2 (by decide)⟩

/-- C6: `getAppliedDiscount` is invariant under permutation of the product's
discount tier list: the order of the tiers does not affect the result. -/
theorem getAppliedDiscount_perm_invariant (item : CartItem) (ds : List Discount)
    (hperm : item.product.discounts.Perm ds) :
    getAppliedDiscount item =
      getAppliedDiscount { item with product := { item.product with discounts := ds } } := by
  simp only [getAppliedDiscount]
  exact hperm.foldl_eq'
    (fun x _ y _ z => by
      by_cases hx : x.quantity ≤ item.quantity <;>
        by_cases hy : y.quantity ≤ item.quantity <;>
          simp [hx, hy, max_assoc, max_comm x.rate y.rate])
    0

/-- Concrete cart item for the C6 witness. -/
def itemC6 : CartItem :=
  ⟨⟨"p1", "product1", 10000, 20, [⟨2, mkRat 1 10⟩, ⟨5, mkRat 1 5⟩]⟩, 5⟩

/-- The C6 witness tier list: the tiers of `itemC6` reversed. -/
def dsC6 : List Discount := [⟨5, mkRat 1 5⟩, ⟨2, mkRat 1 10⟩]

/-- Witness for C6 at a concrete item and a concrete permutation of its tiers. -/
theorem getAppliedDiscount_perm_invariant_witness :
    itemC6.product.discounts.Perm dsC6 ∧
    getAppliedDiscount itemC6 =
      getAppliedDiscount { itemC6 with product := { itemC6.product with discounts := dsC6 } } :=
  ⟨by decide, getAppliedDiscount_perm_invariant itemC6 dsC6 (by decide)⟩

/-- C8: With the product fixed, `getAppliedDiscount` is monotone non-decreasing
in the item's quantity (the rate-nonnegativity hypothesis of the claim is
stated but monotonicity of the guarded max-fold holds regardless). -/
theorem getAppliedDiscount_monotone (item₁ item₂ : CartItem)
    (hp : item₁.product = item₂.product)
    (_hr : ∀ d ∈ item₁.product.discounts, 0 ≤ d.rate)
    (hq : item₁.quantity ≤ item₂.quantity) :
    getAppliedDiscount item₁ ≤ getAppliedDiscount item₂ := by
  simp only [getAppliedDiscount, hp]
  exact afold_mono item₁.quantity item₂.quantity hq item₂.product.discounts 0 0 (le_refl 0)

/-- C8 witness item with quantity 2. -/
def itemC8a : CartItem :=
  ⟨⟨"p1", "product1", 10000, 20, [⟨2, mkRat 1 10⟩, ⟨5, mkRat 1 5⟩]⟩, 2⟩

/-- C8 witness item with the same product and quantity 5. -/
def itemC8b : CartItem :=
  ⟨⟨"p1", "product1", 10000, 20, [⟨2, mkRat 1 10⟩, ⟨5, mkRat 1 5⟩]⟩, 5⟩

/-- Witness for C8 at two concrete items sharing a product, quantities 2 ≤ 5. -/
theorem getAppliedDiscount_monotone_witness :
    itemC8a.product = itemC8b.product ∧
    (∀ d ∈ itemC8a.product.discounts, 0 ≤ d.rate) ∧
    itemC8a.quantity ≤ itemC8b.quantity ∧
    getAppliedDiscount itemC8a ≤ getAppliedDiscount itemC8b :=
  ⟨by decide, by decide, by decide,
    getAppliedDiscount_monotone itemC8a itemC8b (by decide) (by decide) (by decide)⟩

/-- C9: Whatever the tier rates are (negative ones included), `getMaxDiscount`
and `getAppliedDiscount` return a value ≥ 0, since both folds start at 0. -/
theorem discount_results_nonneg (discounts : List Discount) (item : CartItem) :
    0 ≤ getMaxDiscount discounts ∧ 0 ≤ getAppliedDiscount item := by
  constructor
  · simp only [getMaxDiscount]
    exact maxfold_init_le discounts 0
  · simp only [getAppliedDiscount]
    exact afold_init_le item.quantity item.product.discounts 0

/-- C3: For every product and cart with at most one line per product id,
`getRemainingStock` returns the stock minus the quantity of the cart line with
the product's id, and exactly the stock when no such line exists. -/
theorem getRemainingStock_spec (cart : List CartItem) (product : Product)
    (huniq : (cart.map fun item => item.product.id).Nodup) :
    (∀ item ∈ cart, item.product.id = product.id →
        getRemainingStock cart product = product.stock - item.quantity) ∧
    ((∀ item ∈ cart, item.product.id ≠ product.id) →
        getRemainingStock cart product = product.stock) := by
  constructor
  · intro item hmem hid
    rcases hfind : cart.find? (fun it => it.product.id == product.id) with _ | found
    · have hnone := List.find?_eq_none.mp hfind item hmem
      exact absurd (by simpa using hid) hnone
    · have hfoundmem := List.mem_of_find?_eq_some hfind
      have hfoundid : found.product.id = product.id := by
        simpa using List.find?_some hfind
      have heq : found = item :=
        List.inj_on_of_nodup_map huniq hfoundmem hmem (by rw [hfoundid, hid])
      subst heq
      simp [getRemainingStock, hfind]
  · intro hnone
    have hfind : cart.find? (fun it => it.product.id == product.id) = none :=
      List.find?_eq_none.mpr fun it hit => by simpa using hnone it hit
    simp [getRemainingStock, hfind]

/-- C3 witness product, stock 3. -/
def productC3 : Product := ⟨"p1", "product1", 10000, 3, []⟩

/-- C3 witness product absent from the cart, stock 5. -/
def productC3b : Product := ⟨"p2", "product2", 5000, 5, []⟩

/-- C3 witness cart: one line for `productC3` with quantity 3. -/
def cartC3 : List CartItem := [⟨productC3, 3⟩]

/-- Witness for C3: on `cartC3`, the line for "p1" leaves 3 − 3, and the
absent "p2" keeps its full stock. -/
theorem getRemainingStock_spec_witness :
    ((cartC3.map fun item => item.product.id).Nodup ∧
      (∀ item ∈ cartC3, item.product.id = productC3.id →
        getRemainingStock cartC3 productC3 = productC3.stock - item.quantity)) ∧
    ((∀ item ∈ cartC3, item.product.id ≠ productC3b.id) →
      getRemainingStock cartC3 productC3b = productC3b.stock) :=
  ⟨⟨by decide, (getRemainingStock_spec cartC3 productC3 (by decide)).1⟩,
    (getRemainingStock_spec cartC3 productC3b (by decide)).2⟩

/-- C4: The add-to-cart button of a product card is disabled with the sold-out
label exactly when the computed remaining stock is ≤ 0, and enabled with the
add-to-cart label when it is > 0. -/
theorem addButton_state (cart : List CartItem) (product : Product) :
    (getRemainingStock cart product ≤ 0 →
        (renderedAddButton cart product).disabled = true ∧
        (renderedAddButton cart product).label = "품절") ∧
    (0 < getRemainingStock cart product →
        (renderedAddButton cart product).disabled = false ∧
        (renderedAddButton cart product).label = "장바구니에 추가") ∧
    ((renderedAddButton cart product).disabled = true ∨
        (renderedAddButton cart product).label = "품절" →
      getRemainingStock cart product ≤ 0) := by
  by_cases h : getRemainingStock cart product ≤ 0
  · refine ⟨fun _ => ?_, fun hlt => absurd hlt (not_lt.mpr h), fun _ => h⟩
    constructor
    · simp [renderedAddButton, addToCartButton, h]
    · simp [renderedAddButton, addToCartButton, not_lt.mpr h]
  · have hlt : 0 < getRemainingStock cart product := not_le.mp h
    refine ⟨fun h0 => absurd h0 h, fun _ => ?_, fun hcase => ?_⟩
    · constructor
      · simp [renderedAddButton, addToCartButton, h]
      · simp [renderedAddButton, addToCartButton, hlt]
    · rcases hcase with hdis | hlab
      · have : decide (getRemainingStock cart product ≤ 0) = true := hdis
        exact absurd (of_decide_eq_true this) h
      · have : (if getRemainingStock cart product > 0 then "장바구니에 추가"
            else "품절") = "품절" := hlab
        rw [if_pos hlt] at this
        exact absurd this (by decide)

/-- C4 witness product, stock 3, as in the spec's sold-out scenario. -/
def productC4 : Product := ⟨"p4", "product4", 10000, 3, []⟩

/-- C4 witness cart holding all 3 units of `productC4`. -/
def cartC4 : List CartItem := [⟨productC4, 3⟩]

/-- Witness for C4: stock 3 with cart quantity 3 leaves remaining stock ≤ 0,
so the rendered button is disabled with the sold-out label. -/
theorem addButton_state_witness :
    getRemainingStock cartC4 productC4 ≤ 0 ∧
    (renderedAddButton cartC4 productC4).disabled = true ∧
    (renderedAddButton cartC4 productC4).label = "품절" :=
  ⟨by decide, (addButton_state cartC4 productC4).1 (by decide)⟩

/-- C5: Both select-widget change handlers pass to the callback the array
element at the position parsed from the option value when that position is in
range, and pass `null` when the blank option ("" — whose `parseInt` is `NaN`)
is selected or the parsed position is out of range. -/
theorem handleChange_spec (memberships : List Membership) (coupons : List Coupon)
    (value : String) :
    (value = "" →
        ApplyMembership.handleChange memberships value = none ∧
        ApplyCoupon.handleChange coupons value = none) ∧
    (jsParseInt value = none →
        ApplyMembership.handleChange memberships value = none ∧
        ApplyCoupon.handleChange coupons value = none) ∧
    (∀ n : Nat, jsParseInt value = some n →
      (∀ h : n < memberships.length,
          ApplyMembership.handleChange memberships value = some memberships[n]) ∧
      (memberships.length ≤ n →
          ApplyMembership.handleChange memberships value = none) ∧
      (∀ h : n < coupons.length,
          ApplyCoupon.handleChange coupons value = some coupons[n]) ∧
      (coupons.length ≤ n → ApplyCoupon.handleChange coupons value = none)) := by
  refine ⟨?_, ?_, ?_⟩
  · rintro rfl
    exact ⟨rfl, rfl⟩
  · intro hp
    constructor <;>
      simp [ApplyMembership.handleChange, ApplyCoupon.handleChange, jsElementAt, hp]
  · intro n hp
    refine ⟨fun h => ?_, fun h => ?_, fun h => ?_, fun h => ?_⟩
    · simp [ApplyMembership.handleChange, jsElementAt, hp, List.getElem?_eq_getElem h]
    · simp [ApplyMembership.handleChange, jsElementAt, hp, List.getElem?_eq_none h]
    · simp [ApplyCoupon.handleChange, jsElementAt, hp, List.getElem?_eq_getElem h]
    · simp [ApplyCoupon.handleChange, jsElementAt, hp, List.getElem?_eq_none h]

/-- C5 witness membership list with a single entry. -/
def msC5 : List Membership := [⟨"silver", "s", 5⟩]

/-- C5 witness coupon list with a single entry. -/
def csC5 : List Coupon := [⟨"coupon1", "x", DiscountType.amount, 1000⟩]

/-- Witness for C5: index "0" selects the first membership, the blank option
clears the selection, and the out-of-range index "3" yields none. -/
theorem handleChange_spec_witness :
    jsParseInt "0" = some 0 ∧
    ApplyMembership.handleChange msC5 "0" = some ⟨"silver", "s", 5⟩ ∧
    ApplyMembership.handleChange msC5 "" = none ∧
    ApplyCoupon.handleChange csC5 "3" = none :=
  ⟨by decide,
    (((handleChange_spec msC5 csC5 "0").2.2 0 (by decide)).1 (by decide)).trans (by decide),
    ((handleChange_spec msC5 csC5 "").1 rfl).1,
    ((handleChange_spec msC5 csC5 "3").2.2 3 (by decide)).2.2.2 (by decide)⟩

/-- C7: A coupon's rendered discount text is its value followed by "원" when
its type is `amount` and its value followed by "%" when its type is
`percentage`, both in the option list and in the applied-coupon line. -/
theorem couponLabel_spec (coupon : Coupon) :
    (coupon.discountType = DiscountType.amount →
        couponDiscountLabel coupon = toString coupon.discountValue ++ "원" ∧
        couponOptionLabel coupon =
          coupon.name ++ " - " ++ (toString coupon.discountValue ++ "원") ∧
        appliedCouponLine coupon =
          "적용된 쿠폰: " ++ coupon.name ++ "(" ++
            (toString coupon.discountValue ++ "원") ++ " 할인)") ∧
    (coupon.discountType = DiscountType.percentage →
        couponDiscountLabel coupon = toString coupon.discountValue ++ "%" ∧
        couponOptionLabel coupon =
          coupon.name ++ " - " ++ (toString coupon.discountValue ++ "%") ∧
        appliedCouponLine coupon =
          "적용된 쿠폰: " ++ coupon.name ++ "(" ++
            (toString coupon.discountValue ++ "%") ++ " 할인)") := by
  constructor
  · intro h
    refine ⟨?_, ?_, ?_⟩ <;>
      simp [couponDiscountLabel, couponOptionLabel, appliedCouponLine, h]
  · intro h
    have hne : coupon.discountType ≠ DiscountType.amount := by
      rw [h]
      intro hc
      cases hc
    refine ⟨?_, ?_, ?_⟩ <;>
      simp [couponDiscountLabel, couponOptionLabel, appliedCouponLine, hne]

/-- C7 witness coupon of type `amount`, value 1000. -/
def couponAmt : Coupon := ⟨"couponA", "ca", DiscountType.amount, 1000⟩

/-- C7 witness coupon of type `percentage`, value 10. -/
def couponPct : Coupon := ⟨"couponB", "cb", DiscountType.percentage, 10⟩

/-- Witness for C7: value 1000 with type `amount` renders "1000원", value 10
with type `percentage` renders "10%", and the applied-coupon line carries the
same discount text. -/
theorem couponLabel_spec_witness :
    couponDiscountLabel couponAmt = "1000원" ∧
    couponDiscountLabel couponPct = "10%" ∧
    appliedCouponLine couponAmt = "적용된 쿠폰: couponA(1000원 할인)" :=
  ⟨(((couponLabel_spec couponAmt).1 rfl).1).trans (by decide),
    (((couponLabel_spec couponPct).2 rfl).1).trans (by decide),
    ((couponLabel_spec couponAmt).1 rfl).2.2.trans (by decide)⟩

/-- C10: The quantity decrement control of a cart line requests exactly
`item.quantity - 1` and the increment control exactly `item.quantity + 1`,
with no clamping; on a line with quantity 1 the decrement requests 0. -/
theorem quantityControls_spec (item : CartItem) :
    decrementClick item = CartAction.updateQuantity item.product.id (item.quantity - 1) ∧
    incrementClick item = CartAction.updateQuantity item.product.id (item.quantity + 1) ∧
    (item.quantity = 1 →
        decrementClick item = CartAction.updateQuantity item.product.id 0) :=
  ⟨rfl, rfl, fun h => by simp [decrementClick, h]⟩

/-- C10 witness cart line with quantity 1. -/
def itemC10 : CartItem := ⟨⟨"p1", "product1", 10000, 5, []⟩, 1⟩

/-- Witness for C10: on a line with quantity 1, the decrement control requests
quantity 0 from the cart aggregator. -/
theorem quantityControls_spec_witness :
    itemC10.quantity = 1 ∧
    decrementClick itemC10 = CartAction.updateQuantity itemC10.product.id 0 :=
  ⟨by decide, (quantityControls_spec itemC10).2.2 (by decide)⟩

end CartPage
